import Mathlib

/-!
Verification development for the SeisSol-to-HySEA mesh-to-grid conversion
pipeline (`bathy_fromSeissol.py`).

The numeric core of the source is shallowly embedded over `ℚ`:

* `getBarycentricCoord` — barycentric coordinates of a 2D point in a triangle;
* `assign_nodes_values` — area-weighted aggregation of per-face field samples
  into per-vertex values;
* `interpolate_pointCloud` — point location (ray cast) plus barycentric
  interpolation of a query point cloud, including the in-place epsilon
  perturbation retry for unlocated points;
* `generate_grd` — column-major grid-point generation and the reshape of the
  flat interpolation result (modelled here up to the NetCDF write);
* `mesh2dCRSconversion` and `hysea_mesh_corners` — reprojection of vertices
  and the conservative inscribed-rectangle corner computation.

External collaborators of the source (the `trimesh` face-area computation,
the `pyembree` ray caster, the `pyproj` coordinate transformer, and the
seissolxdmf readers) are passed in as explicit function and array parameters:
the embedding is of this repository's own code, with the libraries it calls
left abstract.  File I/O (`np.save`, NetCDF writing) is outside the model;
the functions here return the arrays the source computes before writing them.
Python floats are modelled as exact rationals; NaN-producing numpy float
division is outside the rational model and is noted where it could arise.
-/

namespace BathySeissol

/-- Three-dimensional point/vector with rational coordinates, modelling one
row of the numpy arrays of vertices or of query points. -/
structure Vec3 where
  x : ℚ
  y : ℚ
  z : ℚ
deriving DecidableEq

/-- Default element used for out-of-range list reads of points. -/
def z0 : Vec3 := ⟨0, 0, 0⟩

/-- Planar dot product, modelling `np.dot` on length-2 arrays. -/
def dot (u v : ℚ × ℚ) : ℚ := u.1 * v.1 + u.2 * v.2

/-- Componentwise difference of 2D points, modelling numpy array subtraction. -/
def psub (u v : ℚ × ℚ) : ℚ × ℚ := (u.1 - v.1, u.2 - v.2)

/-- The vector `normal_ac = [vert_a[1] - vert_c[1], vert_c[0] - vert_a[0]]`
built by `getBarycentricCoord` (perpendicular to edge AC). -/
def normal_ac (vert_a vert_c : ℚ × ℚ) : ℚ × ℚ :=
  (vert_a.2 - vert_c.2, vert_c.1 - vert_a.1)

/-- The vector `normal_ab = [vert_a[1] - vert_b[1], vert_b[0] - vert_a[0]]`
built by `getBarycentricCoord` (perpendicular to edge AB). -/
def normal_ab (vert_a vert_b : ℚ × ℚ) : ℚ × ℚ :=
  (vert_a.2 - vert_b.2, vert_b.1 - vert_a.1)

/-- Embedding of `getBarycentricCoord(pto, vert_a, vert_b, vert_c)`
(bathy_fromSeissol.py lines 58-79).  The source returns the Python list
`[bary_alpha, bary_beta, bary_gamma]`; here it is the triple
`(alpha, beta, gamma)`. -/
def getBarycentricCoord (pto vert_a vert_b vert_c : ℚ × ℚ) : ℚ × ℚ × ℚ :=
  let ab := psub vert_b vert_a
  let ac := psub vert_c vert_a
  let ap := psub pto vert_a
  let bary_beta := dot ap (normal_ac vert_a vert_c) / dot ab (normal_ac vert_a vert_c)
  let bary_gamma := dot ap (normal_ab vert_a vert_b) / dot ac (normal_ab vert_a vert_b)
  let bary_alpha := 1 - bary_beta - bary_gamma
  (bary_alpha, bary_beta, bary_gamma)

/-- Triangle mesh: the `trimesh.Trimesh(vertices=…, faces=…, process=False)`
data the source builds from the SeisSol geometry and connectivity arrays. -/
structure Mesh where
  vertices : List Vec3
  faces : List (ℕ × ℕ × ℕ)
deriving DecidableEq

/-- Whether face `f` (a triple of vertex indices) has `i` among its vertices. -/
def faceHasVertex (i : ℕ) (f : ℕ × ℕ × ℕ) : Bool :=
  f.1 == i || f.2.1 == i || f.2.2 == i

/-- Model of `mesh.vertex_faces[i]` after the source's
`np.delete(shared_faces, np.where(shared_faces == -1))`: the indices of
exactly the faces incident to vertex `i`, with the `-1` padding entries of
the trimesh adjacency removed.  (trimesh may order the surviving indices
differently; every use below is order-insensitive.) -/
def sharedFacesOf (faces : List (ℕ × ℕ × ℕ)) (i : ℕ) : List ℕ :=
  (List.range faces.length).filter (fun j => faceHasVertex i (faces.getD j (0, 0, 0)))

/-- Python-level errors the embedded code can raise, together with the error
kinds named by the specification's error taxonomy (§7).  The embedded source
only ever produces `zeroDivisionError` (Python's `ZeroDivisionError`, raised
by `0.0 / 0.0` on plain floats); `degenerateMeshError` and
`pointOutsideMeshError` are the spec's names and are produced nowhere in the
code. -/
inductive PyErr where
  | zeroDivisionError
  | degenerateMeshError
  | pointOutsideMeshError
deriving DecidableEq

/-- The accumulator loop of `assign_nodes_values` for one vertex:
`value_acum += v_j * area_j; total_shared_area += area_j` over the shared
faces, starting from `(0.0, 0.0)`. -/
def nodeAccum (values : List (List ℚ)) (instant : ℕ) (areas : List ℚ)
    (shared : List ℕ) : ℚ × ℚ :=
  shared.foldl
    (fun acc j =>
      (acc.1 + (values.getD instant []).getD j 0 * areas.getD j 0,
       acc.2 + areas.getD j 0))
    (0, 0)

/-- The per-vertex value `final_node_value = value_acum / total_shared_area`
computed by `assign_nodes_values` for a vertex whose incident-face list is
`shared`.  (If the incident areas sum to 0 with `shared` nonempty, numpy
float division would yield NaN; the rational model returns 0 there.  The
claims below never rely on that corner.) -/
def nodeValue (values : List (List ℚ)) (instant : ℕ) (areas : List ℚ)
    (shared : List ℕ) : ℚ :=
  (nodeAccum values instant areas shared).1 / (nodeAccum values instant areas shared).2

/-- The vertex loop of `assign_nodes_values`: for each vertex index in the
list, compute its node value; when a vertex has no incident faces both
accumulators are still plain Python floats `0.0`, so the division
`0.0 / 0.0` raises `ZeroDivisionError` and the whole call fails. -/
def assignLoop (values : List (List ℚ)) (instant : ℕ) (areas : List ℚ)
    (faces : List (ℕ × ℕ × ℕ)) : List ℕ → Except PyErr (List ℚ)
  | [] => .ok []
  | i :: rest =>
    let shared := sharedFacesOf faces i
    if shared.isEmpty then .error .zeroDivisionError
    else
      match assignLoop values instant areas faces rest with
      | .error e => .error e
      | .ok nv => .ok (nodeValue values instant areas shared :: nv)

/-- Embedding of `assign_nodes_values(path2SeissolOutput, mesh3d, variable,
instant)` (bathy_fromSeissol.py lines 141-176).  `values` is the table
`sx.ReadData(variable)` (indexed `[instant][face]`) and `areas` is
`mesh3d.area_faces`, both produced by external collaborators and therefore
taken as parameters.  The source saves the resulting array with `np.save`
and returns the file name; the model returns the `nodes_value` array
itself. -/
def assign_nodes_values (values : List (List ℚ)) (instant : ℕ) (areas : List ℚ)
    (mesh3d : Mesh) : Except PyErr (List ℚ) :=
  assignLoop values instant areas mesh3d.faces (List.range mesh3d.vertices.length)

/-- The specification's node-value formula, written from its words: the
area-weighted mean `sum_{f in F(v)} area(f) * sample[instant][f] / sum_{f in
F(v)} area(f)` over the faces incident to the vertex. -/
def specAreaWeightedMean (values : List (List ℚ)) (instant : ℕ) (areas : List ℚ)
    (shared : List ℕ) : ℚ :=
  ((shared.map (fun f => areas.getD f 0 * (values.getD instant []).getD f 0)).sum) /
    ((shared.map (fun f => areas.getD f 0)).sum)

/-- The literal `eps = 0.0000925925925926  # ~10m` of
`interpolate_pointCloud`. -/
def eps : ℚ := 0.0000925925925926

/-- Effect of the in-place `point_temp += eps` on a point row: numpy adds
`eps` to all three stored components. -/
def addEps (p : Vec3) : Vec3 := ⟨p.x + eps, p.y + eps, p.z + eps⟩

/-- Python/numpy indexing of a list by a possibly negative integer index:
a negative index `i` selects position `length + i` (so `-1` is the last
element).  Out-of-range reads (which would raise in Python, and never occur
in the claims below) return the default. -/
def pyGet {α : Type} (l : List α) (d : α) (i : ℤ) : α :=
  if 0 ≤ i then l.getD i.toNat d else l.getD (l.length - (-i).toNat) d

/-- The body of the interpolation loop of `interpolate_pointCloud` for a
face with vertex-index triple `face_nodes` and 2D query point `q`: fetch the
three node coordinates, drop their z components, compute barycentric
coordinates, and form the convex combination with the three node values. -/
def interpTriangle (mesh2d : Mesh) (nodes_values : List ℚ)
    (face_nodes : ℕ × ℕ × ℕ) (q : ℚ × ℚ) : ℚ :=
  let node0coordinates := mesh2d.vertices.getD face_nodes.1 z0
  let node1coordinates := mesh2d.vertices.getD face_nodes.2.1 z0
  let node2coordinates := mesh2d.vertices.getD face_nodes.2.2 z0
  let bar_coord := getBarycentricCoord q
    (node0coordinates.x, node0coordinates.y)
    (node1coordinates.x, node1coordinates.y)
    (node2coordinates.x, node2coordinates.y)
  bar_coord.1 * nodes_values.getD face_nodes.1 0 +
    bar_coord.2.1 * nodes_values.getD face_nodes.2.1 0 +
    bar_coord.2.2 * nodes_values.getD face_nodes.2.2 0

/-- One interpolation-loop iteration including the face lookup
`face_nodes = mesh2d.faces[face_indexes[index]]`, where the (possibly `-1`)
integer index is resolved by Python/numpy negative indexing. -/
def interpFace (mesh2d : Mesh) (nodes_values : List ℚ) (fi : ℤ) (q : ℚ × ℚ) : ℚ :=
  interpTriangle mesh2d nodes_values (pyGet mesh2d.faces (0, 0, 0) fi) q

/-- The query-point array as the caller sees it after
`interpolate_pointCloud` returns: the source's fixup loop mutates, in place,
exactly the rows whose first ray cast returned `-1`, adding `eps` to all
three components (`point_temp = points[i]; point_temp += eps` operates on a
view).  Each iteration touches only row `i`, so the loop is rendered
positionwise over the zip of the points with their first-cast indices. -/
def pointsAfter (rc : Vec3 → ℤ) (points : List Vec3) : List Vec3 :=
  (points.zip (points.map rc)).map
    (fun pf => if pf.2 = -1 then addEps pf.1 else pf.1)

/-- The `face_indexes` array after the fixup loop: positions whose first ray
cast returned `-1` are overwritten with the result of the single retry cast
from the perturbed point (whatever that result is, `-1` included); all other
positions keep their first-cast index. -/
def face_indexes_final (rc : Vec3 → ℤ) (points : List Vec3) : List ℤ :=
  (points.zip (points.map rc)).map
    (fun pf => if pf.2 = -1 then rc (addEps pf.1) else pf.2)

/-- Embedding of `interpolate_pointCloud(points, mesh2d, nodes_values)`
(bathy_fromSeissol.py lines 179-226).  `rc` models the external pyembree
ray cast `rays.intersects_first(p, [[0,0,1]])`: the index of the first face
hit, or `-1` for a miss.  After the fixup loop the source deletes the z
column (`np.delete(points, 2, 1)`) and interpolates each point against the
face selected by its (possibly still `-1`) index. -/
def interpolate_pointCloud (rc : Vec3 → ℤ) (points : List Vec3) (mesh2d : Mesh)
    (nodes_values : List ℚ) : List ℚ :=
  let points2d := (pointsAfter rc points).map (fun p => (p.x, p.y))
  (points2d.zip (face_indexes_final rc points)).map
    (fun qf => interpFace mesh2d nodes_values qf.2 qf.1)

/-- The value `interpolate_pointCloud` computes for one query point: first
ray cast, the epsilon retry when it misses, then barycentric interpolation
against the selected face at the (possibly perturbed) 2D coordinates. -/
def interpOne (rc : Vec3 → ℤ) (mesh2d : Mesh) (nodes_values : List ℚ)
    (p : Vec3) : ℚ :=
  let fi0 := rc p
  let p1 := if fi0 = -1 then addEps p else p
  let fi1 := if fi0 = -1 then rc (addEps p) else fi0
  interpFace mesh2d nodes_values fi1 (p1.x, p1.y)

/-- The grid points of `generate_grd`: `itertools.product(x, y)` (x outer,
y inner, i.e. column-major) with a third component `z = -1` appended. -/
def gridPoints (x y : List ℚ) : List Vec3 :=
  (x.map (fun xv => y.map (fun yv => (⟨xv, yv, -1⟩ : Vec3)))).flatten

/-- The flat interpolated-value array `generate_grd` obtains for its grid
(bathy_fromSeissol.py lines 242-251), before `reshape(Ncolumn, Nrow).T`
and the NetCDF write. -/
def generate_grd_values (rc : Vec3 → ℤ) (mesh2d : Mesh) (nodes_values : List ℚ)
    (x y : List ℚ) : List ℚ :=
  interpolate_pointCloud rc (gridPoints x y) mesh2d nodes_values

/-- Element `[row][col]` of `res.reshape(Ncolumn, Nrow).T` for a flat
array `res` of length `Ncolumn * Nrow`: position `col * Nrow + row`. -/
def reshapeT (res : List ℚ) (nrow row col : ℕ) : ℚ :=
  res.getD (col * nrow + row) 0

/-- Embedding of `mesh2dCRSconversion(mesh2d, meshCRS)`
(bathy_fromSeissol.py lines 118-138).  `T` models the external pyproj
transformer built from the source and target CRS; the source applies it
vectorized to the x and y columns, zips the results back into rows and
appends a zero z column, keeping the faces array unchanged. -/
def mesh2dCRSconversion (T : ℚ → ℚ → ℚ × ℚ) (mesh2d : Mesh) : Mesh :=
  let x := mesh2d.vertices.map (fun v => v.x)
  let y := mesh2d.vertices.map (fun v => v.y)
  let xnew := (x.zip y).map (fun p => (T p.1 p.2).1)
  let ynew := (x.zip y).map (fun p => (T p.1 p.2).2)
  let nodes_wgs := (xnew.zip ynew).map (fun mn => (⟨mn.1, mn.2, 0⟩ : Vec3))
  ⟨nodes_wgs, mesh2d.faces⟩

/-- Python's `max` over a list; `max([])` raises in Python and returns the
junk default `0` here (every use below is guarded by nonemptiness). -/
def listMax : List ℚ → ℚ
  | [] => 0
  | h :: t => t.foldl max h

/-- Python's `min` over a list, with the same convention as `listMax`. -/
def listMin : List ℚ → ℚ
  | [] => 0
  | h :: t => t.foldl min h

/-- Model of `np.arange(a, b, s)` for positive step `s`: the values
`a + i * s` for `i < max(0, ceil((b - a) / s))`. -/
def arange (a b s : ℚ) : List ℚ :=
  (List.range (Int.toNat (Int.ceil ((b - a) / s)))).map
    (fun i : ℕ => a + (i : ℚ) * s)

/-- Model of `mesh.bounds` restricted to the x and y axes (`bounds[0][:2]`,
`bounds[1][:2]`): componentwise minima and maxima of the vertices. -/
def meshBounds (m : Mesh) : (ℚ × ℚ) × (ℚ × ℚ) :=
  ((listMin (m.vertices.map (fun v => v.x)), listMin (m.vertices.map (fun v => v.y))),
   (listMax (m.vertices.map (fun v => v.x)), listMax (m.vertices.map (fun v => v.y))))

/-- Embedding of `hysea_mesh_corners(mesh2d, inputcrs)`
(bathy_fromSeissol.py lines 287-323).  `T` models the external pyproj
transformer.  The source samples `np.arange` partitions of the bounding
rectangle at unit steps, transforms each boundary row/column elementwise
(`np.repeat` of the fixed coordinate plus the vectorized transform), and
takes `max`/`min` of the transformed coordinates; it returns
`SW_new = [xmin, ymin]` and `NE_new = [xmax, ymax]`. -/
def hysea_mesh_corners (T : ℚ → ℚ → ℚ × ℚ) (mesh2d : Mesh) :
    (ℚ × ℚ) × (ℚ × ℚ) :=
  let sw := (meshBounds mesh2d).1
  let ne := (meshBounds mesh2d).2
  let x := arange sw.1 ne.1 1
  let y := arange sw.2 ne.2 1
  let ymin := listMax (x.map (fun xv => (T xv sw.2).2))
  let ymax := listMin (x.map (fun xv => (T xv ne.2).2))
  let xmin := listMax (y.map (fun yv => (T sw.1 yv).1))
  let xmax := listMin (y.map (fun yv => (T ne.1 yv).1))
  ((xmin, ymin), (xmax, ymax))

/-- The 2D coordinates of mesh vertex `i` (z dropped), as read by the
interpolation loop. -/
def vert2 (mesh2d : Mesh) (i : ℕ) : ℚ × ℚ :=
  ((mesh2d.vertices.getD i z0).x, (mesh2d.vertices.getD i z0).y)

/-- Two unit-area right triangles sharing the edge between vertices 1 and 2,
the fixture of the spec's aggregation unit test (scaled so each face has
area 1 when the areas are supplied as `[1, 1]`). -/
def twoTriMesh : Mesh :=
  ⟨[⟨0, 0, 0⟩, ⟨1, 0, 0⟩, ⟨0, 1, 0⟩, ⟨1, 1, 0⟩], [(0, 1, 2), (1, 3, 2)]⟩

/-- A mesh whose single vertex has no incident faces. -/
def isoMesh : Mesh := ⟨[⟨0, 0, 0⟩], []⟩

/-- Ray caster that never finds a containing triangle. -/
def rcMiss : Vec3 → ℤ := fun _ => -1

/-- Ray caster that always reports face 0. -/
def rc0 : Vec3 → ℤ := fun _ => 0

/-!  Structural helper lemmas about the embedded functions. -/

theorem zip_self_map {α β : Type} (l : List α) (f : α → β) :
    l.zip (l.map f) = l.map (fun a => (a, f a)) := by
  induction l with
  | nil => rfl
  | cons a l ih => simp [ih]

theorem pointsAfter_cons (rc : Vec3 → ℤ) (p : Vec3) (ps : List Vec3) :
    pointsAfter rc (p :: ps)
      = (if rc p = -1 then addEps p else p) :: pointsAfter rc ps := rfl

theorem face_indexes_final_cons (rc : Vec3 → ℤ) (p : Vec3) (ps : List Vec3) :
    face_indexes_final rc (p :: ps)
      = (if rc p = -1 then rc (addEps p) else rc p) :: face_indexes_final rc ps := rfl

/-- Each output entry of `interpolate_pointCloud` depends only on the input
entry at the same position: the whole pipeline is the pointwise map of
`interpOne`. -/
theorem interpolate_pointCloud_eq_map (rc : Vec3 → ℤ) (points : List Vec3)
    (mesh2d : Mesh) (nodes_values : List ℚ) :
    interpolate_pointCloud rc points mesh2d nodes_values
      = points.map (interpOne rc mesh2d nodes_values) := by
  induction points with
  | nil => rfl
  | cons p ps ih =>
    have h1 : interpolate_pointCloud rc (p :: ps) mesh2d nodes_values
        = interpOne rc mesh2d nodes_values p
          :: interpolate_pointCloud rc ps mesh2d nodes_values := by
      by_cases h : rc p = -1 <;>
        simp [interpolate_pointCloud, pointsAfter_cons, face_indexes_final_cons,
          interpOne, h]
    rw [h1, ih, List.map_cons]

theorem interpolate_singleton (rc : Vec3 → ℤ) (p : Vec3) (mesh2d : Mesh)
    (nodes_values : List ℚ) :
    interpolate_pointCloud rc [p] mesh2d nodes_values
      = [interpOne rc mesh2d nodes_values p] := by
  rw [interpolate_pointCloud_eq_map]; rfl

theorem interpolate_length (rc : Vec3 → ℤ) (points : List Vec3) (mesh2d : Mesh)
    (nodes_values : List ℚ) :
    (interpolate_pointCloud rc points mesh2d nodes_values).length = points.length := by
  rw [interpolate_pointCloud_eq_map, List.length_map]

theorem getD_map_of_lt {α β : Type} (f : α → β) (l : List α) (i : ℕ)
    (h : i < l.length) (d : α) (d' : β) :
    (l.map f).getD i d' = f (l.getD i d) := by
  induction l generalizing i with
  | nil => simp at h
  | cons a l ih =>
    cases i with
    | zero => rfl
    | succ n => exact ih n (by simpa using h)

theorem getBarycentricCoord_at_a (vert_a vert_b vert_c : ℚ × ℚ) :
    getBarycentricCoord vert_a vert_a vert_b vert_c = (1, 0, 0) := by
  simp [getBarycentricCoord, psub, dot]

theorem getBarycentricCoord_at_b (vert_a vert_b vert_c : ℚ × ℚ)
    (h : dot (psub vert_b vert_a) (normal_ac vert_a vert_c) ≠ 0) :
    getBarycentricCoord vert_b vert_a vert_b vert_c = (0, 1, 0) := by
  have hz : dot (psub vert_b vert_a) (normal_ab vert_a vert_b) = 0 := by
    simp only [dot, psub, normal_ab]; ring
  simp [getBarycentricCoord, hz, div_self h]

theorem getBarycentricCoord_at_c (vert_a vert_b vert_c : ℚ × ℚ)
    (h : dot (psub vert_c vert_a) (normal_ab vert_a vert_b) ≠ 0) :
    getBarycentricCoord vert_c vert_a vert_b vert_c = (0, 0, 1) := by
  have hz : dot (psub vert_c vert_a) (normal_ac vert_a vert_c) = 0 := by
    simp only [dot, psub, normal_ac]; ring
  simp [getBarycentricCoord, hz, div_self h]

/-- C2: for every triangle with 2D vertices A, B, C and every point p, the
three values returned by `getBarycentricCoord` are computed as
beta = ((p−A)·n_AC)/((B−A)·n_AC) with n_AC = (A.y−C.y, C.x−A.x),
gamma = ((p−A)·n_AB)/((C−A)·n_AB) with n_AB = (A.y−B.y, B.x−A.x),
alpha = 1 − beta − gamma, and they sum to 1 exactly over the rationals,
provided the two divisor dot products are nonzero. -/
theorem getBarycentricCoord_formulas (pto vert_a vert_b vert_c : ℚ × ℚ)
    (h1 : dot (psub vert_b vert_a) (normal_ac vert_a vert_c) ≠ 0)
    (h2 : dot (psub vert_c vert_a) (normal_ab vert_a vert_b) ≠ 0) :
    normal_ac vert_a vert_c = (vert_a.2 - vert_c.2, vert_c.1 - vert_a.1) ∧
    normal_ab vert_a vert_b = (vert_a.2 - vert_b.2, vert_b.1 - vert_a.1) ∧
    (getBarycentricCoord pto vert_a vert_b vert_c).2.1
      = dot (psub pto vert_a) (normal_ac vert_a vert_c)
          / dot (psub vert_b vert_a) (normal_ac vert_a vert_c) ∧
    (getBarycentricCoord pto vert_a vert_b vert_c).2.2
      = dot (psub pto vert_a) (normal_ab vert_a vert_b)
          / dot (psub vert_c vert_a) (normal_ab vert_a vert_b) ∧
    (getBarycentricCoord pto vert_a vert_b vert_c).1
      = 1 - (getBarycentricCoord pto vert_a vert_b vert_c).2.1
          - (getBarycentricCoord pto vert_a vert_b vert_c).2.2 ∧
    (getBarycentricCoord pto vert_a vert_b vert_c).1
        + (getBarycentricCoord pto vert_a vert_b vert_c).2.1
        + (getBarycentricCoord pto vert_a vert_b vert_c).2.2 = 1 := by
  refine ⟨rfl, rfl, rfl, rfl, rfl, ?_⟩
  simp only [getBarycentricCoord]
  ring

theorem getBarycentricCoord_formulas_witness :
    (getBarycentricCoord (3, 5) (0, 0) (1, 0) (0, 1)).1
        + (getBarycentricCoord (3, 5) (0, 0) (1, 0) (0, 1)).2.1
        + (getBarycentricCoord (3, 5) (0, 0) (1, 0) (0, 1)).2.2 = 1 :=
  (getBarycentricCoord_formulas (3, 5) (0, 0) (1, 0) (0, 1)
    (by norm_num [dot, psub, normal_ac])
    (by norm_num [dot, psub, normal_ab])).2.2.2.2.2

/-- C3: for every non-degenerate mesh triangle (at face index `fi`, with
vertex indices `i0 i1 i2`) and every one of its three vertices used as a
query point that the ray cast locates in that triangle, the value produced
by `interpolate_pointCloud` equals the stored per-vertex value exactly:
barycentric interpolation is an identity at triangle vertices. -/
theorem interpolate_identity_at_vertices (rc : Vec3 → ℤ) (mesh2d : Mesh)
    (nodes_values : List ℚ) (fi : ℕ) (hfi : fi < mesh2d.faces.length)
    (i0 i1 i2 : ℕ) (hface : mesh2d.faces.getD fi (0, 0, 0) = (i0, i1, i2))
    (hnd1 : dot (psub (vert2 mesh2d i1) (vert2 mesh2d i0))
        (normal_ac (vert2 mesh2d i0) (vert2 mesh2d i2)) ≠ 0)
    (hnd2 : dot (psub (vert2 mesh2d i2) (vert2 mesh2d i0))
        (normal_ab (vert2 mesh2d i0) (vert2 mesh2d i1)) ≠ 0)
    (ha : rc ⟨(vert2 mesh2d i0).1, (vert2 mesh2d i0).2, -1⟩ = (fi : ℤ))
    (hb : rc ⟨(vert2 mesh2d i1).1, (vert2 mesh2d i1).2, -1⟩ = (fi : ℤ))
    (hc : rc ⟨(vert2 mesh2d i2).1, (vert2 mesh2d i2).2, -1⟩ = (fi : ℤ)) :
    interpolate_pointCloud rc [⟨(vert2 mesh2d i0).1, (vert2 mesh2d i0).2, -1⟩]
        mesh2d nodes_values = [nodes_values.getD i0 0] ∧
    interpolate_pointCloud rc [⟨(vert2 mesh2d i1).1, (vert2 mesh2d i1).2, -1⟩]
        mesh2d nodes_values = [nodes_values.getD i1 0] ∧
    interpolate_pointCloud rc [⟨(vert2 mesh2d i2).1, (vert2 mesh2d i2).2, -1⟩]
        mesh2d nodes_values = [nodes_values.getD i2 0] := by
  have hne : (fi : ℤ) ≠ -1 := by omega
  have key : ∀ p : Vec3, rc p = (fi : ℤ) →
      interpolate_pointCloud rc [p] mesh2d nodes_values
        = [interpFace mesh2d nodes_values (fi : ℤ) (p.x, p.y)] := by
    intro p hp
    rw [interpolate_singleton]
    simp [interpOne, hp, hne]
  have hpy : pyGet mesh2d.faces (0, 0, 0) (fi : ℤ) = (i0, i1, i2) := by
    have h0 : (0 : ℤ) ≤ (fi : ℤ) := Int.natCast_nonneg fi
    unfold pyGet
    rw [if_pos h0, Int.toNat_natCast]
    exact hface
  have ht : ∀ q : ℚ × ℚ, interpTriangle mesh2d nodes_values (i0, i1, i2) q
      = (getBarycentricCoord q (vert2 mesh2d i0) (vert2 mesh2d i1)
          (vert2 mesh2d i2)).1 * nodes_values.getD i0 0
        + (getBarycentricCoord q (vert2 mesh2d i0) (vert2 mesh2d i1)
          (vert2 mesh2d i2)).2.1 * nodes_values.getD i1 0
        + (getBarycentricCoord q (vert2 mesh2d i0) (vert2 mesh2d i1)
          (vert2 mesh2d i2)).2.2 * nodes_values.getD i2 0 := fun _ => rfl
  have hif : ∀ q : ℚ × ℚ, interpFace mesh2d nodes_values (fi : ℤ) q
      = interpTriangle mesh2d nodes_values (i0, i1, i2) q := by
    intro q
    simp only [interpFace, hpy]
  refine ⟨?_, ?_, ?_⟩
  · rw [key _ ha]
    show [interpFace mesh2d nodes_values (fi : ℤ) (vert2 mesh2d i0)] = _
    rw [hif, ht, getBarycentricCoord_at_a]
    simp
  · rw [key _ hb]
    show [interpFace mesh2d nodes_values (fi : ℤ) (vert2 mesh2d i1)] = _
    rw [hif, ht, getBarycentricCoord_at_b _ _ _ hnd1]
    simp
  · rw [key _ hc]
    show [interpFace mesh2d nodes_values (fi : ℤ) (vert2 mesh2d i2)] = _
    rw [hif, ht, getBarycentricCoord_at_c _ _ _ hnd2]
    simp

theorem interpolate_identity_at_vertices_witness :
    interpolate_pointCloud rc0 [⟨(vert2 twoTriMesh 0).1, (vert2 twoTriMesh 0).2, -1⟩]
        twoTriMesh [3, 5, 7, 9] = [([3, 5, 7, 9] : List ℚ).getD 0 0] ∧
    interpolate_pointCloud rc0 [⟨(vert2 twoTriMesh 1).1, (vert2 twoTriMesh 1).2, -1⟩]
        twoTriMesh [3, 5, 7, 9] = [([3, 5, 7, 9] : List ℚ).getD 1 0] ∧
    interpolate_pointCloud rc0 [⟨(vert2 twoTriMesh 2).1, (vert2 twoTriMesh 2).2, -1⟩]
        twoTriMesh [3, 5, 7, 9] = [([3, 5, 7, 9] : List ℚ).getD 2 0] :=
  interpolate_identity_at_vertices rc0 twoTriMesh [3, 5, 7, 9] 0 (by decide)
    0 1 2 (by decide)
    (by norm_num [dot, psub, normal_ac, vert2, twoTriMesh, z0])
    (by norm_num [dot, psub, normal_ab, vert2, twoTriMesh, z0])
    rfl rfl rfl

theorem nodeAccum_eq (values : List (List ℚ)) (instant : ℕ) (areas : List ℚ)
    (shared : List ℕ) (s t : ℚ) :
    shared.foldl
      (fun acc j =>
        (acc.1 + (values.getD instant []).getD j 0 * areas.getD j 0,
         acc.2 + areas.getD j 0)) (s, t)
      = (s + (shared.map
            (fun f => (values.getD instant []).getD f 0 * areas.getD f 0)).sum,
         t + (shared.map (fun f => areas.getD f 0)).sum) := by
  induction shared generalizing s t with
  | nil => simp
  | cons j rest ih =>
    simp only [List.foldl_cons, List.map_cons, List.sum_cons, ih, Prod.mk.injEq]
    constructor <;> ring

theorem nodeValue_eq_spec (values : List (List ℚ)) (instant : ℕ) (areas : List ℚ)
    (shared : List ℕ) :
    nodeValue values instant areas shared
      = specAreaWeightedMean values instant areas shared := by
  unfold nodeValue specAreaWeightedMean nodeAccum
  rw [nodeAccum_eq]
  simp [mul_comm]

theorem assignLoop_ok (values : List (List ℚ)) (instant : ℕ) (areas : List ℚ)
    (faces : List (ℕ × ℕ × ℕ)) (L : List ℕ) (nv : List ℚ)
    (h : assignLoop values instant areas faces L = .ok nv) :
    nv = L.map (fun i => nodeValue values instant areas (sharedFacesOf faces i)) := by
  induction L generalizing nv with
  | nil =>
    simp only [assignLoop] at h
    cases h
    rfl
  | cons i rest ih =>
    simp only [assignLoop] at h
    by_cases hS : (sharedFacesOf faces i).isEmpty = true
    · simp [hS] at h
    · simp only [hS, if_false, Bool.false_eq_true] at h
      cases hrec : assignLoop values instant areas faces rest with
      | error e => rw [hrec] at h; cases h
      | ok nv' =>
        rw [hrec] at h
        cases h
        simp [ih nv' hrec]

theorem mem_sharedFacesOf (faces : List (ℕ × ℕ × ℕ)) (i j : ℕ) :
    j ∈ sharedFacesOf faces i
      ↔ j < faces.length ∧ faceHasVertex i (faces.getD j (0, 0, 0)) = true := by
  simp [sharedFacesOf, List.mem_filter, List.mem_range]

/-- C1: for every vertex `i` of the mesh, the node value computed by
`assign_nodes_values` equals the area-weighted mean
`Σ area(f)·sample[instant][f] / Σ area(f)` over exactly the faces incident
to `i` (second conjunct: membership in the incident-face list is exactly
"the face contains vertex `i`"). -/
theorem assign_nodes_values_weighted_mean (values : List (List ℚ)) (instant : ℕ)
    (areas : List ℚ) (mesh3d : Mesh) (nv : List ℚ)
    (hok : assign_nodes_values values instant areas mesh3d = .ok nv)
    (i : ℕ) (hi : i < mesh3d.vertices.length) :
    nv.getD i 0
        = specAreaWeightedMean values instant areas (sharedFacesOf mesh3d.faces i) ∧
    (∀ j : ℕ, j ∈ sharedFacesOf mesh3d.faces i
      ↔ j < mesh3d.faces.length ∧ faceHasVertex i (mesh3d.faces.getD j (0, 0, 0)) = true) := by
  refine ⟨?_, fun j => mem_sharedFacesOf mesh3d.faces i j⟩
  have h := assignLoop_ok values instant areas mesh3d.faces _ nv hok
  rw [h, getD_map_of_lt _ _ i (by simpa using hi) 0 0]
  have hr : (List.range mesh3d.vertices.length).getD i 0 = i := by
    rw [List.getD_eq_getElem?_getD, List.getElem?_range hi]
    rfl
  rw [hr, nodeValue_eq_spec]

theorem assign_nodes_values_weighted_mean_witness :
    (([10, 15, 15, 20] : List ℚ).getD 1 0
        = specAreaWeightedMean [[10, 20]] 0 [1, 1] (sharedFacesOf twoTriMesh.faces 1) ∧
      (∀ j : ℕ, j ∈ sharedFacesOf twoTriMesh.faces 1
        ↔ j < twoTriMesh.faces.length
            ∧ faceHasVertex 1 (twoTriMesh.faces.getD j (0, 0, 0)) = true)) ∧
    specAreaWeightedMean [[10, 20]] 0 [1, 1] (sharedFacesOf twoTriMesh.faces 1) = 15 := by
  have h0 : sharedFacesOf twoTriMesh.faces 0 = [0] := by decide
  have h1 : sharedFacesOf twoTriMesh.faces 1 = [0, 1] := by decide
  have h2 : sharedFacesOf twoTriMesh.faces 2 = [0, 1] := by decide
  have h3 : sharedFacesOf twoTriMesh.faces 3 = [1] := by decide
  have hrange : List.range twoTriMesh.vertices.length = [0, 1, 2, 3] := by decide
  have hok : assign_nodes_values [[10, 20]] 0 [1, 1] twoTriMesh
      = .ok [10, 15, 15, 20] := by
    rw [assign_nodes_values, hrange]
    simp only [assignLoop, h0, h1, h2, h3, List.isEmpty_cons, if_false,
      Bool.false_eq_true]
    norm_num [nodeValue, nodeAccum]
  refine ⟨assign_nodes_values_weighted_mean [[10, 20]] 0 [1, 1] twoTriMesh
      [10, 15, 15, 20] hok 1 (by decide), ?_⟩
  rw [h1]
  norm_num [specAreaWeightedMean]

/-- C7 counterexample: on the mesh whose single vertex has no incident
faces, the aggregation fails with Python's `ZeroDivisionError` (raised by
the `0.0 / 0.0` division over still-plain Python floats), which is not the
spec-named `DegenerateMeshError`. -/
theorem assign_nodes_values_isolated_counterexample :
    assign_nodes_values [] 0 [] isoMesh = .error .zeroDivisionError ∧
    PyErr.zeroDivisionError ≠ PyErr.degenerateMeshError := by
  exact ⟨rfl, by decide⟩

theorem assignLoop_error (values : List (List ℚ)) (instant : ℕ) (areas : List ℚ)
    (faces : List (ℕ × ℕ × ℕ)) (L : List ℕ) (i : ℕ)
    (hmem : i ∈ L) (hempty : sharedFacesOf faces i = []) :
    assignLoop values instant areas faces L = .error .zeroDivisionError := by
  induction L with
  | nil => cases hmem
  | cons j rest ih =>
    simp only [assignLoop]
    by_cases hj : (sharedFacesOf faces j).isEmpty = true
    · simp [hj]
    · have hr : i ∈ rest := by
        cases List.mem_cons.mp hmem with
        | inl h => subst h; exact absurd (by simp [hempty]) hj
        | inr h => exact h
      simp only [hj, if_false, Bool.false_eq_true]
      rw [ih hr]

/-- C7 (amended): for every mesh containing a vertex with no incident
faces, `assign_nodes_values` fails by raising `ZeroDivisionError` for that
mesh (not the spec-named `DegenerateMeshError`, which the code does not
define); in particular no non-finite node value is silently produced, since
no value array is produced at all. -/
theorem assign_nodes_values_isolated_vertex_error (values : List (List ℚ))
    (instant : ℕ) (areas : List ℚ) (mesh3d : Mesh) (i : ℕ)
    (hi : i < mesh3d.vertices.length)
    (hempty : sharedFacesOf mesh3d.faces i = []) :
    assign_nodes_values values instant areas mesh3d = .error .zeroDivisionError :=
  assignLoop_error values instant areas mesh3d.faces _ i
    (List.mem_range.mpr hi) hempty

theorem assign_nodes_values_isolated_vertex_error_witness :
    assign_nodes_values ([[4]] : List (List ℚ)) 0 ([] : List ℚ) isoMesh
      = .error .zeroDivisionError :=
  assign_nodes_values_isolated_vertex_error [[4]] 0 [] isoMesh 0
    (by decide) (by decide)

theorem getD_last {α : Type} (l : List α) (d : α) (h : l ≠ []) :
    l.getD (l.length - 1) d = l.getLast h := by
  induction l with
  | nil => exact absurd rfl h
  | cons a t ih =>
    cases t with
    | nil => rfl
    | cons b t2 =>
      rw [List.getLast_cons (by simp)]
      have h2 : (b :: t2).getD ((b :: t2).length - 1) d
          = (b :: t2).getLast (by simp) := ih (by simp)
      simp only [List.length_cons] at h2 ⊢
      rw [Nat.add_sub_cancel] at h2 ⊢
      rw [List.getD_cons_succ]
      exact h2

theorem pyGet_neg_one {α : Type} (l : List α) (d : α) (h : l ≠ []) :
    pyGet l d (-1) = l.getLast h := by
  unfold pyGet
  rw [if_neg (by decide)]
  exact getD_last l d h

theorem pointsAfter_eq_map (rc : Vec3 → ℤ) (points : List Vec3) :
    pointsAfter rc points
      = points.map (fun p => if rc p = -1 then addEps p else p) := by
  unfold pointsAfter
  rw [zip_self_map, List.map_map]
  rfl

theorem face_indexes_final_eq_map (rc : Vec3 → ℤ) (points : List Vec3) :
    face_indexes_final rc points
      = points.map (fun p => if rc p = -1 then rc (addEps p) else rc p) := by
  unfold face_indexes_final
  rw [zip_self_map, List.map_map]
  rfl

/-- C9: for every input, `interpolate_pointCloud` returns exactly one value
per query point (its output has the input's length, and by its type it
never raises): when both the initial ray cast and the single epsilon retry
miss, the sentinel `-1` is retained and — via Python negative indexing of
the faces array — the point is silently interpolated against the mesh's
LAST triangle, instead of producing an error or a missing-value sentinel. -/
theorem interpolate_no_failure (rc : Vec3 → ℤ) (points : List Vec3)
    (mesh2d : Mesh) (nodes_values : List ℚ) :
    (interpolate_pointCloud rc points mesh2d nodes_values).length = points.length ∧
    (∀ i : ℕ, i < points.length →
      rc (points.getD i z0) = -1 →
      rc (addEps (points.getD i z0)) = -1 →
      ∀ h : mesh2d.faces ≠ [],
      (interpolate_pointCloud rc points mesh2d nodes_values).getD i 0
        = interpTriangle mesh2d nodes_values (mesh2d.faces.getLast h)
            ((addEps (points.getD i z0)).x, (addEps (points.getD i z0)).y)) := by
  refine ⟨interpolate_length rc points mesh2d nodes_values, ?_⟩
  intro i hi h1 h2 h
  rw [interpolate_pointCloud_eq_map, getD_map_of_lt _ _ i hi z0 0]
  revert h1 h2
  generalize points.getD i z0 = p
  intro h1 h2
  have hone : interpOne rc mesh2d nodes_values p
      = interpFace mesh2d nodes_values (-1) ((addEps p).x, (addEps p).y) := by
    simp [interpOne, h1, h2]
  rw [hone]
  simp only [interpFace]
  rw [pyGet_neg_one mesh2d.faces (0, 0, 0) h]

theorem interpolate_no_failure_witness :
    (interpolate_pointCloud rcMiss [⟨0, 0, -1⟩] twoTriMesh [0, 0, 0, 10]).getD 0 0
      = interpTriangle twoTriMesh [0, 0, 0, 10] (twoTriMesh.faces.getLast (by decide))
          ((addEps (([⟨0, 0, -1⟩] : List Vec3).getD 0 z0)).x,
           (addEps (([⟨0, 0, -1⟩] : List Vec3).getD 0 z0)).y) :=
  (interpolate_no_failure rcMiss [⟨0, 0, -1⟩] twoTriMesh [0, 0, 0, 10]).2 0
    (by decide) rfl rfl (by decide)

/-- C10: when some query point's initial ray cast misses, the caller's
points array is mutated in place: the row view `point_temp += eps` adds
`eps` to all three stored coordinates of exactly that point, the perturbed
coordinates (not the originals) feed the barycentric computation, and points
whose first ray cast succeeds are left unchanged. -/
theorem interpolate_mutates_points (rc : Vec3 → ℤ) (points : List Vec3)
    (mesh2d : Mesh) (nodes_values : List ℚ) (i : ℕ) (hi : i < points.length) :
    (rc (points.getD i z0) = -1 →
      (pointsAfter rc points).getD i z0 = addEps (points.getD i z0) ∧
      (addEps (points.getD i z0)).x = (points.getD i z0).x + eps ∧
      (addEps (points.getD i z0)).y = (points.getD i z0).y + eps ∧
      (addEps (points.getD i z0)).z = (points.getD i z0).z + eps) ∧
    (rc (points.getD i z0) ≠ -1 →
      (pointsAfter rc points).getD i z0 = points.getD i z0) ∧
    (interpolate_pointCloud rc points mesh2d nodes_values).getD i 0
      = interpFace mesh2d nodes_values ((face_indexes_final rc points).getD i 0)
          (((pointsAfter rc points).getD i z0).x,
           ((pointsAfter rc points).getD i z0).y) := by
  have hpa : (pointsAfter rc points).getD i z0
      = (if rc (points.getD i z0) = -1 then addEps (points.getD i z0)
         else points.getD i z0) := by
    rw [pointsAfter_eq_map, getD_map_of_lt _ _ i hi z0 z0]
  have hff : (face_indexes_final rc points).getD i 0
      = (if rc (points.getD i z0) = -1 then rc (addEps (points.getD i z0))
         else rc (points.getD i z0)) := by
    rw [face_indexes_final_eq_map, getD_map_of_lt _ _ i hi z0 0]
  refine ⟨?_, ?_, ?_⟩
  · intro h
    rw [hpa, if_pos h]
    exact ⟨rfl, rfl, rfl, rfl⟩
  · intro h
    rw [hpa, if_neg h]
  · rw [interpolate_pointCloud_eq_map, getD_map_of_lt _ _ i hi z0 0, hpa, hff]
    by_cases h : rc (points.getD i z0) = -1 <;> simp [interpOne, h]

theorem interpolate_mutates_points_witness :
    (rcMiss (([⟨1, 2, -1⟩] : List Vec3).getD 0 z0) = -1 →
      (pointsAfter rcMiss [⟨1, 2, -1⟩]).getD 0 z0
          = addEps (([⟨1, 2, -1⟩] : List Vec3).getD 0 z0) ∧
      (addEps (([⟨1, 2, -1⟩] : List Vec3).getD 0 z0)).x
          = (([⟨1, 2, -1⟩] : List Vec3).getD 0 z0).x + eps ∧
      (addEps (([⟨1, 2, -1⟩] : List Vec3).getD 0 z0)).y
          = (([⟨1, 2, -1⟩] : List Vec3).getD 0 z0).y + eps ∧
      (addEps (([⟨1, 2, -1⟩] : List Vec3).getD 0 z0)).z
          = (([⟨1, 2, -1⟩] : List Vec3).getD 0 z0).z + eps) ∧
    (rcMiss (([⟨1, 2, -1⟩] : List Vec3).getD 0 z0) ≠ -1 →
      (pointsAfter rcMiss [⟨1, 2, -1⟩]).getD 0 z0
          = ([⟨1, 2, -1⟩] : List Vec3).getD 0 z0) ∧
    (interpolate_pointCloud rcMiss [⟨1, 2, -1⟩] twoTriMesh [0, 0, 0, 10]).getD 0 0
      = interpFace twoTriMesh [0, 0, 0, 10]
          ((face_indexes_final rcMiss [⟨1, 2, -1⟩]).getD 0 0)
          (((pointsAfter rcMiss [⟨1, 2, -1⟩]).getD 0 z0).x,
           ((pointsAfter rcMiss [⟨1, 2, -1⟩]).getD 0 z0).y) :=
  interpolate_mutates_points rcMiss [⟨1, 2, -1⟩] twoTriMesh [0, 0, 0, 10] 0 (by decide)

/-- C5 counterexample: with a ray caster missing both the original and the
perturbed point, `interpolate_pointCloud` does not fail that point: the
sentinel `-1` survives the single retry into the face-index array (first
conjunct) and a value interpolated against face `(1, 3, 2)` is produced
(second conjunct) — which is exactly the mesh's LAST face (third conjunct),
reached through Python negative indexing.  No `PointOutsideMeshError` (or
any error) exists in the code. -/
theorem interpolate_miss_counterexample :
    face_indexes_final rcMiss [⟨0, 0, -1⟩] = [-1] ∧
    interpolate_pointCloud rcMiss [⟨0, 0, -1⟩] twoTriMesh [0, 0, 0, 10]
      = [interpTriangle twoTriMesh [0, 0, 0, 10] (1, 3, 2)
          ((addEps ⟨0, 0, -1⟩).x, (addEps ⟨0, 0, -1⟩).y)] ∧
    twoTriMesh.faces.getLast (by decide) = (1, 3, 2) := by
  refine ⟨rfl, ?_, rfl⟩
  rw [interpolate_singleton]
  simp [interpOne, rcMiss, interpFace, pyGet, twoTriMesh]

/-- C5 (amended): when the initial ray cast misses, `interpolate_pointCloud`
adds `eps = 0.0000925925925926` (≈9.26e-5 angular units, ~10 m at the
equator) to all three coordinates of the point and retries the ray cast
exactly once, the retry's result becoming the point's face index whatever
it is; if the retry also misses, the `-1` sentinel is retained and the
point is silently interpolated against the mesh's last face via negative
indexing — no error is raised. -/
theorem interpolate_eps_retry (rc : Vec3 → ℤ) (p : Vec3) (mesh2d : Mesh)
    (nodes_values : List ℚ) (h1 : rc p = -1) :
    eps = 925925925926 / 10 ^ 16 ∧
    face_indexes_final rc [p] = [rc (addEps p)] ∧
    (rc (addEps p) = -1 → ∀ h : mesh2d.faces ≠ [],
      face_indexes_final rc [p] = [-1] ∧
      interpolate_pointCloud rc [p] mesh2d nodes_values
        = [interpTriangle mesh2d nodes_values (mesh2d.faces.getLast h)
            ((addEps p).x, (addEps p).y)]) := by
  refine ⟨by norm_num [eps], by simp [face_indexes_final, h1], ?_⟩
  intro h2 h
  refine ⟨by simp [face_indexes_final, h1, h2], ?_⟩
  rw [interpolate_singleton]
  have hone : interpOne rc mesh2d nodes_values p
      = interpFace mesh2d nodes_values (-1) ((addEps p).x, (addEps p).y) := by
    simp [interpOne, h1, h2]
  rw [hone]
  simp only [interpFace]
  rw [pyGet_neg_one mesh2d.faces (0, 0, 0) h]

theorem interpolate_eps_retry_witness :
    eps = 925925925926 / 10 ^ 16 ∧
    face_indexes_final rcMiss [⟨5, 5, -1⟩] = [rcMiss (addEps ⟨5, 5, -1⟩)] ∧
    (rcMiss (addEps ⟨5, 5, -1⟩) = -1 → ∀ h : twoTriMesh.faces ≠ [],
      face_indexes_final rcMiss [⟨5, 5, -1⟩] = [-1] ∧
      interpolate_pointCloud rcMiss [⟨5, 5, -1⟩] twoTriMesh [1, 2, 3, 4]
        = [interpTriangle twoTriMesh [1, 2, 3, 4] (twoTriMesh.faces.getLast h)
            ((addEps ⟨5, 5, -1⟩).x, (addEps ⟨5, 5, -1⟩).y)]) :=
  interpolate_eps_retry rcMiss ⟨5, 5, -1⟩ twoTriMesh [1, 2, 3, 4] rfl

theorem gridPoints_cons (a : ℚ) (x y : List ℚ) :
    gridPoints (a :: x) y
      = (y.map (fun yv => (⟨a, yv, -1⟩ : Vec3))) ++ gridPoints x y := rfl

theorem gridPoints_length (x y : List ℚ) :
    (gridPoints x y).length = x.length * y.length := by
  induction x with
  | nil => simp [gridPoints]
  | cons a x ih =>
    rw [gridPoints_cons, List.length_append, List.length_map, ih, List.length_cons]
    ring

theorem gridPoints_getD (x y : List ℚ) (row col : ℕ) (hr : row < y.length)
    (hc : col < x.length) :
    (gridPoints x y).getD (col * y.length + row) z0
      = ⟨x.getD col 0, y.getD row 0, -1⟩ := by
  induction x generalizing col with
  | nil => simp at hc
  | cons a x ih =>
    cases col with
    | zero =>
      rw [gridPoints_cons, Nat.zero_mul, Nat.zero_add,
        List.getD_append _ _ _ _ (by simpa using hr),
        getD_map_of_lt _ _ row hr 0 z0]
      rfl
    | succ c =>
      rw [gridPoints_cons,
        List.getD_append_right _ _ _ _
          (by
            rw [List.length_map]
            calc y.length ≤ (c + 1) * y.length :=
                  Nat.le_mul_of_pos_left _ (Nat.succ_pos c)
              _ ≤ (c + 1) * y.length + row := Nat.le_add_right _ _)]
      have hidx : (c + 1) * y.length + row
          - (y.map (fun yv => (⟨a, yv, -1⟩ : Vec3))).length = c * y.length + row := by
        rw [List.length_map, Nat.succ_mul]
        omega
      rw [hidx, List.getD_cons_succ]
      exact ih c (by simpa using hc)

/-- C4: the grid points of `generate_grd` are generated in column-major
order (x outer, y inner), `interpolate_pointCloud` preserves input order
index-for-index (each output entry is the interpolation of the point at the
same input position), and the flat result reshaped by
`reshape(Ncolumn, Nrow).T` has at `[row][col]` the interpolated value of
the grid point with x-index `col` and y-index `row`. -/
theorem generate_grd_reshape (rc : Vec3 → ℤ) (mesh2d : Mesh)
    (nodes_values : List ℚ) (x y : List ℚ) :
    (generate_grd_values rc mesh2d nodes_values x y).length
        = x.length * y.length ∧
    (∀ points : List Vec3,
      interpolate_pointCloud rc points mesh2d nodes_values
        = points.map
            (fun p => (interpolate_pointCloud rc [p] mesh2d nodes_values).headD 0)) ∧
    (∀ row col : ℕ, row < y.length → col < x.length →
      reshapeT (generate_grd_values rc mesh2d nodes_values x y) y.length row col
        = (interpolate_pointCloud rc [⟨x.getD col 0, y.getD row 0, -1⟩]
            mesh2d nodes_values).headD 0) := by
  refine ⟨?_, ?_, ?_⟩
  · rw [generate_grd_values, interpolate_length, gridPoints_length]
  · intro points
    rw [interpolate_pointCloud_eq_map]
    simp [interpolate_singleton]
  · intro row col hr hc
    rw [reshapeT, generate_grd_values, interpolate_pointCloud_eq_map]
    have hlt : col * y.length + row < (gridPoints x y).length := by
      rw [gridPoints_length]
      have h1 : (col + 1) * y.length ≤ x.length * y.length :=
        Nat.mul_le_mul_right _ hc
      rw [Nat.succ_mul] at h1
      omega
    rw [getD_map_of_lt _ _ _ hlt z0 0, gridPoints_getD x y row col hr hc,
      interpolate_singleton]
    rfl

theorem generate_grd_reshape_witness :
    reshapeT (generate_grd_values rc0 twoTriMesh [0, 0, 0, 10] [0, 1/2] [0, 1/2, 1])
        ([0, 1/2, 1] : List ℚ).length 2 1
      = (interpolate_pointCloud rc0
          [⟨([0, 1/2] : List ℚ).getD 1 0, ([0, 1/2, 1] : List ℚ).getD 2 0, -1⟩]
          twoTriMesh [0, 0, 0, 10]).headD 0 :=
  (generate_grd_reshape rc0 twoTriMesh [0, 0, 0, 10] [0, 1/2] [0, 1/2, 1]).2.2 2 1
    (by decide) (by decide)

theorem arange_pos_len (a b : ℚ) (h : a < b) : 0 < (arange a b 1).length := by
  simp only [arange, List.length_map, List.length_range]
  have h1 : (0 : ℚ) < (b - a) / 1 := by
    rw [div_one]
    linarith
  have h2 : 0 < Int.ceil ((b - a) / 1) := Int.ceil_pos.mpr h1
  exact Int.lt_toNat.mpr (by exact_mod_cast h2)

/-- C6: `hysea_mesh_corners` samples points along all four edges of the
source bounding rectangle at unit steps, transforms each sampled point, and
returns the inscribed rectangle: xmin = max of the transformed left-edge x
coordinates, xmax = min of the right-edge x, ymin = max of the bottom-edge
y, ymax = min of the top-edge y (the returned pair is `(SW, NE) =
((xmin, ymin), (xmax, ymax))`; the edge samples are nonempty whenever the
rectangle is nondegenerate). -/
theorem hysea_mesh_corners_spec (T : ℚ → ℚ → ℚ × ℚ) (mesh2d : Mesh)
    (hx : (meshBounds mesh2d).1.1 < (meshBounds mesh2d).2.1)
    (hy : (meshBounds mesh2d).1.2 < (meshBounds mesh2d).2.2) :
    hysea_mesh_corners T mesh2d
      = ((listMax ((arange (meshBounds mesh2d).1.2 (meshBounds mesh2d).2.2 1).map
            (fun yv => (T (meshBounds mesh2d).1.1 yv).1)),
          listMax ((arange (meshBounds mesh2d).1.1 (meshBounds mesh2d).2.1 1).map
            (fun xv => (T xv (meshBounds mesh2d).1.2).2))),
         (listMin ((arange (meshBounds mesh2d).1.2 (meshBounds mesh2d).2.2 1).map
            (fun yv => (T (meshBounds mesh2d).2.1 yv).1)),
          listMin ((arange (meshBounds mesh2d).1.1 (meshBounds mesh2d).2.1 1).map
            (fun xv => (T xv (meshBounds mesh2d).2.2).2)))) ∧
    arange (meshBounds mesh2d).1.1 (meshBounds mesh2d).2.1 1 ≠ [] ∧
    arange (meshBounds mesh2d).1.2 (meshBounds mesh2d).2.2 1 ≠ [] :=
  ⟨rfl, List.length_pos.mp (arange_pos_len _ _ hx),
    List.length_pos.mp (arange_pos_len _ _ hy)⟩

/-- Mesh and transform used to instantiate the corner theorem. -/
def boundsMesh : Mesh := ⟨[⟨0, 0, 0⟩, ⟨2, 3, 0⟩], []⟩

/-- Sample coordinate transform standing in for the pyproj transformer. -/
def Tdemo : ℚ → ℚ → ℚ × ℚ := fun a b => (a + b, b - a)

theorem hysea_mesh_corners_spec_witness :
    hysea_mesh_corners Tdemo boundsMesh
      = ((listMax ((arange (meshBounds boundsMesh).1.2 (meshBounds boundsMesh).2.2 1).map
            (fun yv => (Tdemo (meshBounds boundsMesh).1.1 yv).1)),
          listMax ((arange (meshBounds boundsMesh).1.1 (meshBounds boundsMesh).2.1 1).map
            (fun xv => (Tdemo xv (meshBounds boundsMesh).1.2).2))),
         (listMin ((arange (meshBounds boundsMesh).1.2 (meshBounds boundsMesh).2.2 1).map
            (fun yv => (Tdemo (meshBounds boundsMesh).2.1 yv).1)),
          listMin ((arange (meshBounds boundsMesh).1.1 (meshBounds boundsMesh).2.1 1).map
            (fun xv => (Tdemo xv (meshBounds boundsMesh).2.2).2)))) ∧
    arange (meshBounds boundsMesh).1.1 (meshBounds boundsMesh).2.1 1 ≠ [] ∧
    arange (meshBounds boundsMesh).1.2 (meshBounds boundsMesh).2.2 1 ≠ [] :=
  hysea_mesh_corners_spec Tdemo boundsMesh
    (by norm_num [meshBounds, listMin, listMax, boundsMesh, min_def, max_def])
    (by norm_num [meshBounds, listMin, listMax, boundsMesh, min_def, max_def])

theorem mesh2dCRSconversion_vertices (T : ℚ → ℚ → ℚ × ℚ) (mesh2d : Mesh) :
    (mesh2dCRSconversion T mesh2d).vertices
      = mesh2d.vertices.map
          (fun v => (⟨(T v.x v.y).1, (T v.x v.y).2, 0⟩ : Vec3)) := by
  simp only [mesh2dCRSconversion, List.zip_map', List.map_map]
  rfl

/-- C8: CRS reprojection returns a new mesh with the identical faces array
and the same vertex count, in which each vertex's (x, y) is transformed
independently of all other vertices by the transform function and every
z-component of the result is 0; connectivity is unchanged. -/
theorem mesh2dCRSconversion_spec (T : ℚ → ℚ → ℚ × ℚ) (mesh2d : Mesh) :
    (mesh2dCRSconversion T mesh2d).faces = mesh2d.faces ∧
    (mesh2dCRSconversion T mesh2d).vertices.length = mesh2d.vertices.length ∧
    (∀ i : ℕ, (mesh2dCRSconversion T mesh2d).vertices[i]?
        = (mesh2d.vertices[i]?).map
            (fun v => (⟨(T v.x v.y).1, (T v.x v.y).2, 0⟩ : Vec3))) ∧
    (∀ w ∈ (mesh2dCRSconversion T mesh2d).vertices, w.z = 0) := by
  refine ⟨rfl, ?_, ?_, ?_⟩
  · rw [mesh2dCRSconversion_vertices, List.length_map]
  · intro i
    rw [mesh2dCRSconversion_vertices, List.getElem?_map]
  · intro w hw
    rw [mesh2dCRSconversion_vertices] at hw
    obtain ⟨v, _, rfl⟩ := List.mem_map.mp hw
    rfl

theorem mesh2dCRSconversion_spec_witness :
    (mesh2dCRSconversion Tdemo twoTriMesh).faces = twoTriMesh.faces ∧
    (mesh2dCRSconversion Tdemo twoTriMesh).vertices[0]?
      = (twoTriMesh.vertices[0]?).map
          (fun v => (⟨(Tdemo v.x v.y).1, (Tdemo v.x v.y).2, 0⟩ : Vec3)) :=
  ⟨(mesh2dCRSconversion_spec Tdemo twoTriMesh).1,
    (mesh2dCRSconversion_spec Tdemo twoTriMesh).2.2.1 0⟩

end BathySeissol
